import Mathlib

/-!
Verification of the T-Deck LoRa link layer (src/src/hal/lora.cpp and
src/src/comms/lora.cpp) against its natural-language specification.

The HAL-layer `LoRaModule` (hal/lora.cpp) owns the radio state machine, the
5-byte-header packet codec, the reliability (ACK/timeout) logic and the
airtime-based transmit wait; the comms-layer `LoRaManager` (comms/lora.cpp)
is the application facade with its own 8-byte-header format.  Both are
embedded below as pure Lean functions over explicit state records.       -/

namespace TDeckLoRa

/-- Radio operating modes (`enum class LoRaMode`, hal/lora.h). -/
inductive LMode
  | standby
  | sleep
  | transmit
  | receive
  | cad
deriving DecidableEq, Repr

/-- Operation status (`enum class LoRaStatus`, hal/lora.h). -/
inductive LStatus
  | ok
  | error
  | timeout
  | busy
  | invalidParam
  | noAck
deriving DecidableEq, Repr

/-- Flag bit `LORA_FLAG_ACK` (hal/lora.h). -/
def LORA_FLAG_ACK : Nat := 1

/-- Flag bit `LORA_FLAG_RELIABLE` (hal/lora.h). -/
def LORA_FLAG_RELIABLE : Nat := 2

/-- The packet record `struct LoRaPacket` (hal/lora.h): one-byte header fields and a payload of
at most 240 bytes.  The fixed `uint8_t payload[240]` array is modelled as the
list of its meaningful first `length` bytes. -/
structure Packet where
  destination : Nat
  source : Nat
  id : Nat
  flags : Nat
  length : Nat
  payload : List Nat
deriving DecidableEq, Repr

/-- Well-formedness of a packet, as the spec's round-trip law states it:
one-byte header fields, `length` at most 240 and exactly `length` payload
bytes, each one byte. -/
def wellFormed (p : Packet) : Prop :=
  p.destination < 256 ∧ p.source < 256 ∧ p.id < 256 ∧ p.flags < 256 ∧
    p.length ≤ 240 ∧ p.payload.length = p.length ∧ ∀ b ∈ p.payload, b < 256

instance (p : Packet) : Decidable (wellFormed p) := by
  unfold wellFormed; infer_instance

/-- Wire encoding of a packet, from `LoRaModule::sendPacket`
(hal/lora.cpp:327-341): the five header bytes in fixed order
`[destination, source, id, flags, length]` followed by exactly
`length` payload bytes (`LoRa.write(packet.payload, packet.length)`). -/
def encodePacket (p : Packet) : List Nat :=
  [p.destination, p.source, p.id, p.flags, p.length] ++ p.payload.take p.length

/-- Result of decoding a received byte sequence.  `LoRaModule::receivePacket`
returns the single status `LoRaStatus::ERROR` at two distinct program points;
the constructors keep the two return sites apart:
`errTooLarge` is the site at hal/lora.cpp:428-431 ("LoRa packet too large"),
`errIncomplete` the site at hal/lora.cpp:434-441 ("LoRa packet payload
incomplete"). -/
inductive DecodeResult
  | ok (p : Packet)
  | errTooLarge
  | errIncomplete
deriving DecidableEq, Repr

/-- A single `LoRa.read()` from the remaining buffer.  The Arduino stream `read`
returns `-1` when no byte is available; assigned to a `uint8_t` header field
that value becomes `255`. -/
def readByte (buf : List Nat) : Nat × List Nat :=
  match buf with
  | [] => (255, [])
  | b :: rest => (b, rest)

/-- The payload-read loop of `LoRaModule::receivePacket`
(hal/lora.cpp:434-441): reads exactly `n` bytes, but each read is preceded
by a `LoRa.available()` check; if the buffer runs out the loop aborts. -/
def readPayloadBytes : Nat → List Nat → Option (List Nat)
  | 0, _ => some []
  | _ + 1, [] => none
  | n + 1, b :: rest =>
    match readPayloadBytes n rest with
    | some l => some (b :: l)
    | none => none

/-- The byte-level decoding path of `LoRaModule::receivePacket`
(hal/lora.cpp:420-441): read the five header bytes, reject a declared
length above `sizeof(packet.payload) = 240`, then read exactly `length`
payload bytes with an availability check before every read. -/
def decodeBytes (buf : List Nat) : DecodeResult :=
  let r0 := readByte buf
  let r1 := readByte r0.2
  let r2 := readByte r1.2
  let r3 := readByte r2.2
  let r4 := readByte r3.2
  if 240 < r4.1 then DecodeResult.errTooLarge
  else
    match readPayloadBytes r4.1 r4.2 with
    | none => DecodeResult.errIncomplete
    | some pl => DecodeResult.ok ⟨r0.1, r1.1, r2.1, r3.1, r4.1, pl⟩

/-- Cached state of `LoRaModule` (hal/lora.h private members).  `frequency`
and `bandwidth` are held in Hz; the claims only exercise integer-valued
bandwidths, for which the C++ `float` compares are exact. -/
structure ModuleState where
  available : Bool
  frequency : Nat
  bandwidth : Nat
  spreadingFactor : Nat
  codingRate : Nat
  syncWord : Nat
  txPower : Int
  mode : LMode
  nodeAddress : Nat
  timeout : Nat
  packetId : Nat
deriving DecidableEq, Repr

/-- The legal bandwidth set listed in `LoRaModule::setBandwidth`
(hal/lora.cpp:114-118), in Hz. -/
def legalBandwidths : List Nat :=
  [7800, 10400, 15600, 20800, 31250, 41700, 62500, 125000, 250000, 500000]

/-- Result of a configuration setter: the returned `bool` and the module
state afterwards. -/
structure SetResult where
  ok : Bool
  state : ModuleState
deriving DecidableEq, Repr

/-- Setter `LoRaModule::setBandwidth` (hal/lora.cpp:107-130): reject when the
module is unavailable or the value is not in the enumerated legal set,
otherwise cache the new bandwidth (and write it to the radio). -/
def setBandwidth (s : ModuleState) (bandwidth : Nat) : SetResult :=
  if s.available = false then ⟨false, s⟩
  else if bandwidth ∈ legalBandwidths then ⟨true, { s with bandwidth := bandwidth }⟩
  else ⟨false, s⟩

/-- Setter `LoRaModule::setSpreadingFactor` (hal/lora.cpp:132-149): legal range
6..=12. -/
def setSpreadingFactor (s : ModuleState) (spreadingFactor : Nat) : SetResult :=
  if s.available = false then ⟨false, s⟩
  else if spreadingFactor < 6 ∨ 12 < spreadingFactor then ⟨false, s⟩
  else ⟨true, { s with spreadingFactor := spreadingFactor }⟩

/-- Setter `LoRaModule::setCodingRate` (hal/lora.cpp:151-168): legal range 5..=8. -/
def setCodingRate (s : ModuleState) (codingRate : Nat) : SetResult :=
  if s.available = false then ⟨false, s⟩
  else if codingRate < 5 ∨ 8 < codingRate then ⟨false, s⟩
  else ⟨true, { s with codingRate := codingRate }⟩

/-- Setter `LoRaModule::setTxPower` (hal/lora.cpp:183-200): legal range 2..=20 dBm
(the argument is a signed `int`). -/
def setTxPower (s : ModuleState) (power : Int) : SetResult :=
  if s.available = false then ⟨false, s⟩
  else if power < 2 ∨ 20 < power then ⟨false, s⟩
  else ⟨true, { s with txPower := power }⟩

/-- Observable side effects of the hal-layer functions: a frame handed to
the radio for transmission (the `LoRa.beginPacket .. endPacket` sequence)
or a hardware mode change (`LoRa.idle/sleep/receive`). -/
inductive REvent
  | txFrame (frame : List Nat)
  | modeSet (m : LMode)
deriving DecidableEq, Repr

/-- Result of `setMode`: returned `bool`, new state, hardware events. -/
structure ModeResult where
  ok : Bool
  state : ModuleState
  events : List REvent
deriving DecidableEq, Repr

/-- Mode switch `LoRaModule::setMode` (hal/lora.cpp:202-245).  The four supported modes
store the new mode and issue the corresponding hardware call; `CAD` is
unsupported: the stored mode is reverted to the previous one, no hardware
call is made, and the function returns false. -/
def setMode (s : ModuleState) (m : LMode) : ModeResult :=
  if s.available = false then ⟨false, s, []⟩
  else
    match m with
    | LMode.cad => ⟨false, s, []⟩
    | m => ⟨true, { s with mode := m }, [REvent.modeSet m]⟩

/-- The mode normalisation performed by `LoRaModule::isPacketAvailable`
(hal/lora.cpp:263-276) and at the top of `receivePacket`: outside RECEIVE
mode, transparently switch into RECEIVE first. -/
def ensureReceive (s : ModuleState) : ModuleState × List REvent :=
  if s.mode ≠ LMode.receive then
    let r := setMode s LMode.receive
    (r.state, r.events)
  else (s, [])

/-- The header mutation `sendPacket` applies to the caller's packet
(hal/lora.cpp:316-322): the source byte is overwritten with this node's
address, and a caller-supplied id of 0 is replaced with the pre-incremented
per-node counter (`packet.id = ++_packetId`, a `uint8_t` increment). -/
def mutatePacket (s : ModuleState) (p : Packet) : Packet :=
  let p1 := { p with source := s.nodeAddress }
  if p.id = 0 then { p1 with id := (s.packetId + 1) % 256 } else p1

/-- Result of a send: status, the caller's packet after mutation, the new
module state and the hardware events. -/
structure SendResult where
  status : LStatus
  packet : Packet
  state : ModuleState
  events : List REvent
deriving DecidableEq, Repr

/-- The transmit phase of `LoRaModule::sendPacket` (hal/lora.cpp:305-354):
availability check, switch to TRANSMIT, header mutation, frame write and
`LoRa.endPacket` (whose hardware outcome is the `txOk` input; on failure
the status is ERROR, but the mutation and frame write have already
happened).  The post-transmit `waitForTxReady` delay is pure timing and has
no further observable effect here.  This is the whole of `sendPacket` for a
packet without the RELIABLE flag; the reliable ACK wait (lines 356-385) is
layered on top in `sendPacketF` below. -/
def transmitPhase (s : ModuleState) (p : Packet) (txOk : Bool) : SendResult :=
  if s.available = false then ⟨LStatus.error, p, s, []⟩
  else
    let m :=
      if s.mode ≠ LMode.transmit then setMode s LMode.transmit
      else ⟨true, s, []⟩
    let p2 := mutatePacket m.state p
    let s2 :=
      if p.id = 0 then { m.state with packetId := (m.state.packetId + 1) % 256 }
      else m.state
    let ev := m.events ++ [REvent.txFrame (encodePacket p2)]
    if txOk = false then ⟨LStatus.error, p2, s2, ev⟩
    else ⟨LStatus.ok, p2, s2, ev⟩

/-- The ACK packet `receivePacket` builds for a received reliable packet
(hal/lora.cpp:459-465): destination = the packet's source, source = this
node, same id, `ACK` flag, zero length. -/
def ackPacketFor (self : Nat) (p : Packet) : Packet :=
  ⟨p.source, self, p.id, LORA_FLAG_ACK, 0, []⟩

/-- Result of a receive: status, the parsed packet (`none` on the two
decode-error paths, where the C++ out-parameter is only partially filled
and the caller must not use it), new state and hardware events. -/
structure RecvResult where
  status : LStatus
  packet : Option Packet
  state : ModuleState
  events : List REvent
deriving DecidableEq, Repr

/-- Receive path `LoRaModule::receivePacket` (hal/lora.cpp:390-472) on an available
packet whose raw bytes are `buf` (the initial poll loop, lines 401-418,
only waits for this availability and is pure timing).  After decoding:
a packet addressed elsewhere is returned with status OK and no further
action (the caller checks the destination); a packet for this node (or
broadcast) with RELIABLE set and ACK clear is acknowledged by sending a
zero-length ACK through `sendPacket` before returning.  That inner
`sendPacket` call is `transmitPhase`: the ACK's flag byte is
`LORA_FLAG_ACK` alone, so its RELIABLE bit is clear and the ACK-wait
branch of `sendPacket` is dead for it.  `ackTxOk` is the hardware outcome
of that transmission (its status is discarded by the code). -/
def receivePacketF (s : ModuleState) (buf : List Nat) (ackTxOk : Bool) : RecvResult :=
  if s.available = false then ⟨LStatus.error, none, s, []⟩
  else
    let e := ensureReceive s
    let s1 := e.1
    match decodeBytes buf with
    | DecodeResult.errTooLarge => ⟨LStatus.error, none, s1, e.2⟩
    | DecodeResult.errIncomplete => ⟨LStatus.error, none, s1, e.2⟩
    | DecodeResult.ok p =>
      if p.destination ≠ s1.nodeAddress ∧ p.destination ≠ 255 then
        ⟨LStatus.ok, some p, s1, e.2⟩
      else if p.flags &&& LORA_FLAG_RELIABLE ≠ 0 ∧ p.flags &&& LORA_FLAG_ACK = 0 then
        let a := transmitPhase s1 (ackPacketFor s1.nodeAddress p) ackTxOk
        ⟨LStatus.ok, some p, a.state, e.2 ++ a.events⟩
      else ⟨LStatus.ok, some p, s1, e.2⟩

/-- The ACK-match test of the reliable-send wait loop (hal/lora.cpp:370-373):
ACK flag set, same id as the sent packet, addressed to this node, and
coming from the original destination. -/
def ackMatches (self : Nat) (sent : Packet) (q : Packet) : Prop :=
  q.flags &&& LORA_FLAG_ACK ≠ 0 ∧ q.id = sent.id ∧
    q.destination = self ∧ q.source = sent.destination

instance (self : Nat) (sent q : Packet) : Decidable (ackMatches self sent q) := by
  unfold ackMatches; infer_instance

/-- Result of the ACK wait loop: final status, state and events. -/
structure WaitResult where
  status : LStatus
  state : ModuleState
  events : List REvent
deriving DecidableEq, Repr

/-- The ACK wait loop of `LoRaModule::sendPacket` (hal/lora.cpp:363-384).
Real time is abstracted: `polls` is the sequence of `isPacketAvailable()`
poll outcomes occurring within the `timeoutMs` window (`none` = no packet
this tick, `some buf` = a packet with raw bytes `buf` is available and is
read by `receivePacket`).  Each poll first performs `isPacketAvailable`'s
transparent switch back into RECEIVE.  A successfully parsed packet that
passes `ackMatches` ends the loop with OK; every other outcome (parse
error, mismatch — the latter possibly emitting an auto-ACK inside
`receivePacket`) continues.  When the window is exhausted the loop ends
with NO_ACK. -/
def ackWaitLoop (sent : Packet) (s : ModuleState) :
    List (Option (List Nat)) → WaitResult
  | [] => ⟨LStatus.noAck, s, []⟩
  | none :: rest =>
    let e := ensureReceive s
    let w := ackWaitLoop sent e.1 rest
    ⟨w.status, w.state, e.2 ++ w.events⟩
  | some buf :: rest =>
    let e := ensureReceive s
    let r := receivePacketF e.1 buf true
    match r.packet with
    | some q =>
      if ackMatches e.1.nodeAddress sent q then
        ⟨LStatus.ok, r.state, e.2 ++ r.events⟩
      else
        let w := ackWaitLoop sent r.state rest
        ⟨w.status, w.state, e.2 ++ r.events ++ w.events⟩
    | none =>
      let w := ackWaitLoop sent r.state rest
      ⟨w.status, w.state, e.2 ++ r.events ++ w.events⟩

/-- Send path `LoRaModule::sendPacket` (hal/lora.cpp:305-388) in full: the transmit
phase, then — only when the (unchanged) flags carry RELIABLE — the switch
to RECEIVE and the ACK wait loop over the polls of the timeout window. -/
def sendPacketF (s : ModuleState) (p : Packet) (txOk : Bool)
    (polls : List (Option (List Nat))) : SendResult :=
  let t := transmitPhase s p txOk
  if t.status ≠ LStatus.ok then t
  else if t.packet.flags &&& LORA_FLAG_RELIABLE ≠ 0 then
    let m := setMode t.state LMode.receive
    let w := ackWaitLoop t.packet m.state polls
    ⟨w.status, t.packet, w.state, t.events ++ m.events ++ w.events⟩
  else t

/-- A poll outcome that satisfies the reliable sender: its bytes parse and
the parsed packet passes the ACK-match test. -/
def pollMatches (self : Nat) (sent : Packet) (buf : List Nat) : Prop :=
  ∃ q, decodeBytes buf = DecodeResult.ok q ∧ ackMatches self sent q

/-- Shape of every frame the receive path transmits on its own: a
zero-length packet whose flag byte is exactly `LORA_FLAG_ACK`. -/
def isAckFrame (f : List Nat) : Prop :=
  ∃ d s i, f = [d, s, i, LORA_FLAG_ACK, 0]

/-- The transmit events among a list of hardware events. -/
def txFrames (evs : List REvent) : List (List Nat) :=
  evs.filterMap fun e =>
    match e with
    | REvent.txFrame f => some f
    | REvent.modeSet _ => none

/-! ## Airtime estimate (`LoRaModule::waitForTxReady`, hal/lora.cpp:522-550)

The C++ computes with `uint32_t` and `float`; the claims only exercise
bandwidths divisible by 1000 (in particular 125000 Hz), for which the
`float` quotient `_bandwidth / 1000` is an exact integer and the whole
computation coincides with the `Nat` floor arithmetic below. -/

/-- Formula `symbolDuration = 1000 * (1 << _spreadingFactor) / (_bandwidth / 1000)`
(hal/lora.cpp:532). -/
def symbolDurationMs (sf bw : Nat) : Nat := 1000 * 2 ^ sf / (bw / 1000)

/-- Formula `payloadSymbols = 8 + (20 * 8) / (4 * _spreadingFactor)`
(hal/lora.cpp:535).  The payload length is hard-coded to 20 bytes
("Approximate for typical packet"); the estimate never sees the actual
payload. -/
def payloadSymbolsCode (sf : Nat) : Nat := 8 + 20 * 8 / (4 * sf)

/-- Formula `estimatedAirtime = preambleDuration + headerDuration + payloadDuration`
(hal/lora.cpp:533-538); the header is `symbolDuration * 4.25` truncated to
`uint32_t`, i.e. `symbolDuration * 17 / 4` in floor arithmetic. -/
def estimatedAirtime (sf bw : Nat) : Nat :=
  symbolDurationMs sf bw * 8 + symbolDurationMs sf bw * 17 / 4 +
    symbolDurationMs sf bw * payloadSymbolsCode sf

/-- Formula `waitTime = min(estimatedAirtime + 50, timeout)` (hal/lora.cpp:539):
the post-transmit wait bound with its 50 ms safety margin. -/
def waitTimeMs (sf bw timeout : Nat) : Nat :=
  min (estimatedAirtime sf bw + 50) timeout

/-- Modelled from the claim's words, for comparison with the source
estimate: symbol duration `1000 * 2^SF / (bandwidth/1000)`, preamble 8
symbols, header 4.25 symbols, payload symbol count
`8 + ceil(payloadLen*8 / (4*SF))` of the ACTUAL payload length, total plus
a fixed 50 ms margin. -/
def claimAirtime (sf bw payloadLen : Nat) : Nat :=
  let sd := 1000 * 2 ^ sf / (bw / 1000)
  sd * 8 + sd * 17 / 4 + sd * (8 + (payloadLen * 8 + (4 * sf - 1)) / (4 * sf)) + 50

/-- The claim's formula amended to what the source computes: floor instead
of ceiling in the payload symbol count, and a fixed assumed payload of 20
bytes in place of the actual payload length. -/
def claimAirtimeFloor20 (sf bw : Nat) : Nat :=
  let sd := 1000 * 2 ^ sf / (bw / 1000)
  sd * 8 + sd * 17 / 4 + sd * (8 + 20 * 8 / (4 * sf)) + 50

/-! ## Comms layer: `LoRaManager` (comms/lora.cpp)

The comms-layer duplicate of the subsystem uses its own wire format: an
8-byte header `[messageType, sourceId:u16, destId:u16, packetId:u16,
length]` with 16-bit big-endian addresses and `0xFFFF` as broadcast. -/

/-- Message type `LORA_MSG_ACK` (comms/lora.h). -/
def LORA_MSG_ACK : Nat := 4

/-- The packet record `struct LoRaPacket` of comms/lora.h (distinct from the hal packet). -/
structure CommsPacket where
  messageType : Nat
  sourceId : Nat
  destId : Nat
  packetId : Nat
  length : Nat
  payload : List Nat
deriving DecidableEq, Repr

/-- The manager state relevant to receiving (comms/lora.h private members). -/
structure CommsState where
  deviceId : Nat
  packetCounter : Nat
  lastRssi : Int
  lastSnr : Int
deriving DecidableEq, Repr

/-- Wire encoding of `LoRaManager::sendPacket` (comms/lora.cpp:184-198):
message type, source/destination/packet ids high byte first, length,
then `length` payload bytes. -/
def encodeCommsPacket (p : CommsPacket) : List Nat :=
  [p.messageType, p.sourceId >>> 8, p.sourceId &&& 255, p.destId >>> 8,
    p.destId &&& 255, p.packetId >>> 8, p.packetId &&& 255, p.length] ++
    p.payload.take p.length

/-- Packet factory `LoRaManager::createPacket` (comms/lora.cpp:492-505): stamps this
device's id as source and the post-incremented 16-bit packet counter as
packet id. -/
def createPacket (s : CommsState) (messageType destId : Nat)
    (payload : List Nat) (length : Nat) : CommsPacket × CommsState :=
  (⟨messageType, s.deviceId, destId, s.packetCounter, length, payload.take length⟩,
    { s with packetCounter := (s.packetCounter + 1) % 65536 })

/-- Acknowledgment send `LoRaManager::sendAcknowledgment` (comms/lora.cpp:508-515): a
`LORA_MSG_ACK` packet back to the sender whose 2-byte payload is the
acknowledged packet id, big endian. -/
def sendAcknowledgment (s : CommsState) (rp : CommsPacket) : CommsPacket × CommsState :=
  createPacket s LORA_MSG_ACK rp.sourceId
    [(rp.packetId >>> 8) &&& 255, rp.packetId &&& 255] 2

/-- Result of the comms receive path: new state, the packet handed to the
registered callback (if any), and the frames transmitted (ACKs). -/
structure HandleResult where
  state : CommsState
  dispatched : Option CommsPacket
  frames : List (List Nat)
deriving DecidableEq, Repr

/-- The destination id parsed by `handleReceivedPacket`
(comms/lora.cpp:376): two big-endian header bytes at offsets 3 and 4. -/
def recvDestId (buf : List Nat) : Nat :=
  (buf.getD 3 0) <<< 8 ||| buf.getD 4 0

/-- Receive path `LoRaManager::handleReceivedPacket` (comms/lora.cpp:360-489) on a
received frame `buf` (the bytes `LoRa.read` yields; `LoRa.available()` is
`buf.length`).  Frames of fewer than 8 bytes are rejected before anything
is recorded.  RSSI/SNR are stored, the header parsed (16-bit fields read
high byte first), and a frame addressed neither to this device nor to
broadcast `0xFFFF` is dropped: no ACK, no callback.  Otherwise the payload
is read (never past the buffer: the loop re-checks `LoRa.available()`), an
ACK is sent for every non-broadcast non-ACK message, and the packet is
handed to the callback when one is registered (`cb`). -/
def handleReceivedPacket (s : CommsState) (buf : List Nat) (rssi snr : Int)
    (cb : Bool) : HandleResult :=
  if buf.length < 8 then ⟨s, none, []⟩
  else
    let s1 := { s with lastRssi := rssi, lastSnr := snr }
    let messageType := buf.getD 0 0
    let sourceId := (buf.getD 1 0) <<< 8 ||| buf.getD 2 0
    let destId := recvDestId buf
    let packetId := (buf.getD 5 0) <<< 8 ||| buf.getD 6 0
    let length := buf.getD 7 0
    if destId ≠ s1.deviceId ∧ destId ≠ 65535 then ⟨s1, none, []⟩
    else if 256 < length then ⟨s1, none, []⟩
    else
      let pkt : CommsPacket :=
        ⟨messageType, sourceId, destId, packetId, length, (buf.drop 8).take length⟩
      let step :=
        if destId ≠ 65535 ∧ messageType ≠ LORA_MSG_ACK then
          let a := sendAcknowledgment s1 pkt
          (a.2, [encodeCommsPacket a.1])
        else (s1, [])
      ⟨step.1, if cb then some pkt else none, step.2⟩

/-! ## Comms layer: `LoRaManager::configure` (comms/lora.cpp:219-278) -/

/-- The manager's cached radio configuration fields. -/
structure MgrState where
  initialized : Bool
  frequency : Int
  bandwidth : Int
  spreadingFactor : Int
  codingRate : Int
  syncWord : Int
deriving DecidableEq, Repr

/-- Result of `configure`: the returned `bool`, the state afterwards, and
whether `saveConfig()` (persistence through the external store) ran. -/
structure CfgResult where
  ok : Bool
  state : MgrState
  saved : Bool
deriving DecidableEq, Repr

/-- All five cached configuration fields replaced by the call's arguments. -/
def applyConfigFields (s : MgrState) (fr bw sf cr sw : Int) : MgrState :=
  ⟨s.initialized, fr, bw, sf, cr, sw⟩

/-- The frequency step of `configure` (comms/lora.cpp:232-240): applied only
when changed; `freqHwOk` is the radio's answer to `LoRa.setFrequency`; a
refusal clears the success flag. -/
def cfgFreq (s : MgrState) (frequency : Int) (freqHwOk : Bool) : Bool × MgrState :=
  if frequency ≠ s.frequency then
    if freqHwOk then (true, { s with frequency := frequency }) else (false, s)
  else (true, s)

/-- The bandwidth step of `configure` (comms/lora.cpp:242-246): applied when
changed, with no validation of any kind. -/
def cfgBw (s : MgrState) (bandwidth : Int) : MgrState :=
  if bandwidth ≠ s.bandwidth then { s with bandwidth := bandwidth } else s

/-- The spreading-factor step of `configure` (comms/lora.cpp:248-255):
applied when changed and inside 6..=12; a value outside the range clears
the success flag. -/
def cfgSf (s : MgrState) (spreadingFactor : Int) : Bool × MgrState :=
  if spreadingFactor ≠ s.spreadingFactor ∧ 6 ≤ spreadingFactor ∧ spreadingFactor ≤ 12 then
    (true, { s with spreadingFactor := spreadingFactor })
  else if spreadingFactor < 6 ∨ 12 < spreadingFactor then (false, s)
  else (true, s)

/-- The coding-rate step of `configure` (comms/lora.cpp:257-264): applied
when changed and inside 5..=8; a value outside the range clears the
success flag. -/
def cfgCr (s : MgrState) (codingRate : Int) : Bool × MgrState :=
  if codingRate ≠ s.codingRate ∧ 5 ≤ codingRate ∧ codingRate ≤ 8 then
    (true, { s with codingRate := codingRate })
  else if codingRate < 5 ∨ 8 < codingRate then (false, s)
  else (true, s)

/-- The sync-word step of `configure` (comms/lora.cpp:266-270): applied when
changed, with no validation. -/
def cfgSync (s : MgrState) (syncWord : Int) : MgrState :=
  if syncWord ≠ s.syncWord then { s with syncWord := syncWord } else s

/-- Configuration entry point `LoRaManager::configure` (comms/lora.cpp:219-278).  Before `init()` it
caches all five parameters unvalidated and returns true without persisting.
When initialized it walks the parameters in order — frequency (applied if
the radio accepts it, `freqHwOk`), bandwidth (no validation), spreading
factor (6..=12), coding rate (5..=8), sync word (no validation) — applying
each acceptable change as it goes and clearing the success flag on the
rejected ones; `saveConfig()` runs exactly when the flag survived. -/
def configure (s : MgrState) (frequency bandwidth spreadingFactor codingRate syncWord : Int)
    (freqHwOk : Bool) : CfgResult :=
  if s.initialized = false then
    ⟨true,
      { s with
          frequency := frequency
          bandwidth := bandwidth
          spreadingFactor := spreadingFactor
          codingRate := codingRate
          syncWord := syncWord },
      false⟩
  else
    let f := cfgFreq s frequency freqHwOk
    let s2 := cfgBw f.2 bandwidth
    let g := cfgSf s2 spreadingFactor
    let h := cfgCr g.2 codingRate
    let s5 := cfgSync h.2 syncWord
    ⟨f.1 && g.1 && h.1, s5, f.1 && g.1 && h.1⟩

theorem readPayloadBytes_self : ∀ l : List Nat, readPayloadBytes l.length l = some l
  | [] => rfl
  | b :: rest => by
    simp only [List.length_cons, readPayloadBytes, readPayloadBytes_self rest]

theorem readPayloadBytes_short :
    ∀ (n : Nat) (l : List Nat), l.length < n → readPayloadBytes n l = none
  | 0, _, h => absurd h (Nat.not_lt_zero _)
  | _ + 1, [], _ => rfl
  | n + 1, b :: rest, h => by
    have hr : rest.length < n := by simpa using h
    simp only [readPayloadBytes, readPayloadBytes_short n rest hr]

theorem readPayloadBytes_some :
    ∀ (n : Nat) (l pl : List Nat), readPayloadBytes n l = some pl →
      pl.length = n ∧ n ≤ l.length
  | 0, l, pl, h => by
    simp only [readPayloadBytes, Option.some.injEq] at h
    subst h
    exact ⟨rfl, Nat.zero_le _⟩
  | _ + 1, [], pl, h => by simp [readPayloadBytes] at h
  | n + 1, b :: rest, pl, h => by
    cases hr : readPayloadBytes n rest with
    | none => simp [readPayloadBytes, hr] at h
    | some l' =>
      obtain ⟨h1, h2⟩ := readPayloadBytes_some n rest l' hr
      simp only [readPayloadBytes, hr, Option.some.injEq] at h
      subst h
      simp [h1, Nat.succ_le_succ h2]

/-- C1: for every well-formed packet `p` (one-byte header fields
destination, source, id, flags, and a length in 0..=240 with exactly
`length` payload bytes), encoding `p` as the five header bytes
`[destination, source, id, flags, length]` followed by exactly `length`
payload bytes and then decoding the resulting byte sequence yields a
packet equal to `p`. -/
theorem c1_decode_encode_roundtrip (p : Packet) (h : wellFormed p) :
    decodeBytes (encodePacket p) = DecodeResult.ok p := by
  obtain ⟨-, -, -, -, h5, h6, -⟩ := h
  have htake : p.payload.take p.length = p.payload := by
    rw [← h6]
    exact p.payload.take_length
  have hread : readPayloadBytes p.length (p.payload.take p.length) = some p.payload := by
    rw [htake]
    rw [← h6]
    exact readPayloadBytes_self p.payload
  simp [encodePacket, decodeBytes, readByte, Nat.not_lt.mpr h5, hread]

theorem c1_roundtrip_witness :
    wellFormed ⟨3, 1, 7, 2, 2, [10, 20]⟩ ∧
    decodeBytes (encodePacket ⟨3, 1, 7, 2, 2, [10, 20]⟩) =
      DecodeResult.ok ⟨3, 1, 7, 2, 2, [10, 20]⟩ :=
  ⟨by decide, c1_decode_encode_roundtrip _ (by decide)⟩

/-- C5 (amended): decoding fails whenever fewer than 5 header bytes are
present — through the oversize-length check, since missing bytes read as
the `uint8_t` cast of the stream's `-1` sentinel (255 > 240) — fails with
the oversize error exactly when the declared length exceeds the 240-byte
maximum, fails with the distinct incomplete-payload error when the
declared length is within bounds but exceeds the bytes available after
the header, and never reads past the provided buffer: a successful
decode returns exactly the declared number of payload bytes, all of
which exist in the buffer. -/
theorem c5_decode_errors_amended :
    (∀ buf : List Nat, buf.length < 5 → decodeBytes buf = DecodeResult.errTooLarge) ∧
    (∀ a b c d l : Nat, ∀ rest : List Nat, 240 < l →
      decodeBytes (a :: b :: c :: d :: l :: rest) = DecodeResult.errTooLarge) ∧
    (∀ a b c d l : Nat, ∀ rest : List Nat, l ≤ 240 → rest.length < l →
      decodeBytes (a :: b :: c :: d :: l :: rest) = DecodeResult.errIncomplete) ∧
    (∀ buf : List Nat, ∀ p : Packet, decodeBytes buf = DecodeResult.ok p →
      5 + p.length ≤ buf.length ∧ p.payload.length = p.length) := by
  refine ⟨?_, ?_, ?_, ?_⟩
  · intro buf h
    rcases buf with _ | ⟨a, _ | ⟨b, _ | ⟨c, _ | ⟨d, _ | ⟨e, rest⟩⟩⟩⟩⟩
    · simp [decodeBytes, readByte]
    · simp [decodeBytes, readByte]
    · simp [decodeBytes, readByte]
    · simp [decodeBytes, readByte]
    · simp [decodeBytes, readByte]
    · exact absurd h (by simp)
  · intro a b c d l rest h
    simp [decodeBytes, readByte, h]
  · intro a b c d l rest h1 h2
    simp [decodeBytes, readByte, Nat.not_lt.mpr h1, readPayloadBytes_short l rest h2]
  · intro buf p h
    rcases buf with _ | ⟨a, _ | ⟨b, _ | ⟨c, _ | ⟨d, _ | ⟨l, rest⟩⟩⟩⟩⟩ <;>
      simp only [decodeBytes, readByte] at h <;> try simp_all
    by_cases hl : 240 < l
    · simp [hl] at h
    · simp only [hl, if_false] at h
      cases hr : readPayloadBytes l rest with
      | none => simp [hr] at h
      | some pl =>
        obtain ⟨h1, h2⟩ := readPayloadBytes_some l rest pl hr
        simp only [hr, DecodeResult.ok.injEq] at h
        subst h
        simp only [List.length_cons]
        constructor
        · omega
        · simpa using h1

theorem c5_decode_errors_witness :
    decodeBytes [1, 2] = DecodeResult.errTooLarge ∧
    decodeBytes [0, 0, 0, 0, 241] = DecodeResult.errTooLarge ∧
    decodeBytes [0, 0, 0, 0, 2, 9] = DecodeResult.errIncomplete :=
  ⟨c5_decode_errors_amended.1 [1, 2] (by decide),
   c5_decode_errors_amended.2.1 0 0 0 0 241 [] (by decide),
   c5_decode_errors_amended.2.2.1 0 0 0 0 2 [9] (by decide) (by decide)⟩

theorem c5_decode_errors_counterexample :
    decodeBytes [0, 0, 0, 0, 1] = DecodeResult.errIncomplete ∧
    DecodeResult.errIncomplete ≠ DecodeResult.errTooLarge := by decide

/-- C4 counterexample: the claim's airtime formula (payload symbol count
`8 + ceil(payloadLen*8/(4*SF))` of the actual payload length) gives
26930 ms at `(SF=7, BW=125000, payloadLen=20)`, but the code's estimate
(hal/lora.cpp:532-539) is 25906 ms: the code hard-codes a 20-byte
payload with truncating division, so even at the documented scenario
point the claimed formula and the code disagree. -/
theorem c4_airtime_counterexample :
    estimatedAirtime 7 125000 + 50 = 25906 ∧
    claimAirtime 7 125000 20 = 26930 ∧ (25906 : Nat) ≠ 26930 := by decide

/-- C4 (amended): the airtime estimate bounding the post-transmit wait
equals the claimed formula with floor division in place of the ceiling
and a fixed assumed payload of 20 bytes in place of the actual payload
length (to which it is therefore insensitive), and at
`(SF=7, BW=125 kHz)` the bound used is `min(25906, timeout)` ms. -/
theorem c4_airtime_amended :
    (∀ sf bw : Nat, estimatedAirtime sf bw + 50 = claimAirtimeFloor20 sf bw) ∧
    (∀ t : Nat, waitTimeMs 7 125000 t = min 25906 t) := by
  constructor
  · intro sf bw
    simp [estimatedAirtime, claimAirtimeFloor20, symbolDurationMs, payloadSymbolsCode]
  · intro t
    rfl

/-- C6: for every configuration setter (bandwidth, spreading factor,
coding rate, TX power) and every argument outside the corresponding
legal range or set, the setter returns false and the whole module state
is unchanged; whenever a setter returns true, the cached value has been
updated to the argument. -/
theorem c6_setter_validation (s : ModuleState) :
    (∀ bw : Nat, bw ∉ legalBandwidths → setBandwidth s bw = ⟨false, s⟩) ∧
    (∀ bw : Nat, (setBandwidth s bw).ok = true → (setBandwidth s bw).state = { s with bandwidth := bw }) ∧
    (∀ sf : Nat, ¬(6 ≤ sf ∧ sf ≤ 12) → setSpreadingFactor s sf = ⟨false, s⟩) ∧
    (∀ sf : Nat, (setSpreadingFactor s sf).ok = true → (setSpreadingFactor s sf).state = { s with spreadingFactor := sf }) ∧
    (∀ cr : Nat, ¬(5 ≤ cr ∧ cr ≤ 8) → setCodingRate s cr = ⟨false, s⟩) ∧
    (∀ cr : Nat, (setCodingRate s cr).ok = true → (setCodingRate s cr).state = { s with codingRate := cr }) ∧
    (∀ pw : Int, ¬(2 ≤ pw ∧ pw ≤ 20) → setTxPower s pw = ⟨false, s⟩) ∧
    (∀ pw : Int, (setTxPower s pw).ok = true → (setTxPower s pw).state = { s with txPower := pw }) := by
  refine ⟨?_, ?_, ?_, ?_, ?_, ?_, ?_, ?_⟩
  · intro v h
    unfold setBandwidth
    split_ifs
    · rfl
    · rfl
  · intro v h
    unfold setBandwidth at h ⊢
    split_ifs at h ⊢ <;> simp_all
  · intro v h
    unfold setSpreadingFactor
    split_ifs with h1 h2
    · rfl
    · rfl
    · exact absurd h (by omega)
  · intro v h
    unfold setSpreadingFactor at h ⊢
    split_ifs at h ⊢ <;> simp_all
  · intro v h
    unfold setCodingRate
    split_ifs with h1 h2
    · rfl
    · rfl
    · exact absurd h (by omega)
  · intro v h
    unfold setCodingRate at h ⊢
    split_ifs at h ⊢ <;> simp_all
  · intro v h
    unfold setTxPower
    split_ifs with h1 h2
    · rfl
    · rfl
    · exact absurd h (by omega)
  · intro v h
    unfold setTxPower at h ⊢
    split_ifs at h ⊢ <;> simp_all

theorem c6_setter_validation_witness :
    ((999 : Nat) ∉ legalBandwidths ∧ setBandwidth ⟨true, 0, 125000, 7, 5, 18, 17, LMode.standby, 1, 1000, 0⟩ 999 = ⟨false, ⟨true, 0, 125000, 7, 5, 18, 17, LMode.standby, 1, 1000, 0⟩⟩) ∧
    (¬(6 ≤ 13 ∧ 13 ≤ 12) ∧ setSpreadingFactor ⟨true, 0, 125000, 7, 5, 18, 17, LMode.standby, 1, 1000, 0⟩ 13 = ⟨false, ⟨true, 0, 125000, 7, 5, 18, 17, LMode.standby, 1, 1000, 0⟩⟩) :=
  ⟨⟨by decide, (c6_setter_validation _).1 999 (by decide)⟩,
   ⟨by decide, (c6_setter_validation _).2.2.1 13 (by decide)⟩⟩

/-- C7: for every module state, `setMode(CAD)` returns false and leaves
the stored mode (indeed the whole state) unchanged, issuing no hardware
call — so CAD is not silently mapped to another state — while on an
available module `setMode` with any of the four supported modes succeeds
and updates the stored mode to that value. -/
theorem c7_setmode_cad (s : ModuleState) :
    (setMode s LMode.cad = ⟨false, s, []⟩) ∧
    (s.available = true → ∀ m : LMode, m ≠ LMode.cad →
      setMode s m = ⟨true, { s with mode := m }, [REvent.modeSet m]⟩) := by
  constructor
  · simp [setMode]
  · intro h m hm
    cases m <;> simp_all [setMode]

theorem c7_setmode_cad_witness :
    (setMode ⟨true, 0, 0, 7, 5, 18, 17, LMode.standby, 1, 0, 0⟩ LMode.cad =
      ⟨false, ⟨true, 0, 0, 7, 5, 18, 17, LMode.standby, 1, 0, 0⟩, []⟩) ∧
    (setMode ⟨true, 0, 0, 7, 5, 18, 17, LMode.standby, 1, 0, 0⟩ LMode.receive =
      ⟨true, ⟨true, 0, 0, 7, 5, 18, 17, LMode.receive, 1, 0, 0⟩, [REvent.modeSet LMode.receive]⟩) :=
  ⟨(c7_setmode_cad _).1,
   (c7_setmode_cad _).2 rfl LMode.receive (by decide)⟩

theorem sendPacketF_packet_phase (s : ModuleState) (p : Packet) (txOk : Bool)
    (polls : List (Option (List Nat))) :
    (sendPacketF s p txOk polls).packet = (transmitPhase s p txOk).packet := by
  simp only [sendPacketF]
  split_ifs <;> rfl

theorem transmitPhase_packet (s : ModuleState) (p : Packet) (txOk : Bool)
    (h : s.available = true) :
    (transmitPhase s p txOk).packet = mutatePacket s p := by
  simp [transmitPhase, setMode, h]
  split_ifs <;> rfl

theorem sendPacketF_packet (s : ModuleState) (p : Packet) (txOk : Bool)
    (polls : List (Option (List Nat))) (h : s.available = true) :
    (sendPacketF s p txOk polls).packet = mutatePacket s p := by
  rw [sendPacketF_packet_phase, transmitPhase_packet s p txOk h]

/-- C10: for every packet passed to `sendPacket` on an available module,
the caller's packet is mutated: the source field is always overwritten
with this node's address, the id field is replaced by the pre-incremented
per-node counter (`(packetId+1) % 256`) exactly when the caller-supplied
id is 0 — so a counter that wraps to 0 leaves the packet with id 0, to be
re-assigned on its next send — and destination, flags, length and payload
are left unchanged. -/
theorem c10_sendpacket_mutation (s : ModuleState) (p : Packet) (txOk : Bool)
    (polls : List (Option (List Nat))) (h : s.available = true) :
    (sendPacketF s p txOk polls).packet.source = s.nodeAddress ∧
    (sendPacketF s p txOk polls).packet.id =
      (if p.id = 0 then (s.packetId + 1) % 256 else p.id) ∧
    (p.id = 0 ∧ s.packetId = 255 → (sendPacketF s p txOk polls).packet.id = 0) ∧
    (sendPacketF s p txOk polls).packet.destination = p.destination ∧
    (sendPacketF s p txOk polls).packet.flags = p.flags ∧
    (sendPacketF s p txOk polls).packet.length = p.length ∧
    (sendPacketF s p txOk polls).packet.payload = p.payload := by
  rw [sendPacketF_packet s p txOk polls h]
  unfold mutatePacket
  split_ifs with h0 <;> simp_all

theorem c10_sendpacket_mutation_witness :
    (sendPacketF ⟨true, 0, 0, 7, 5, 18, 17, LMode.standby, 2, 0, 255⟩ ⟨3, 9, 0, 0, 1, [42]⟩ true []).packet.source = 2 ∧
    (sendPacketF ⟨true, 0, 0, 7, 5, 18, 17, LMode.standby, 2, 0, 255⟩ ⟨3, 9, 0, 0, 1, [42]⟩ true []).packet.id =
      (if (0 : Nat) = 0 then (255 + 1) % 256 else 0) ∧
    ((0 : Nat) = 0 ∧ (255 : Nat) = 255 →
      (sendPacketF ⟨true, 0, 0, 7, 5, 18, 17, LMode.standby, 2, 0, 255⟩ ⟨3, 9, 0, 0, 1, [42]⟩ true []).packet.id = 0) ∧
    (sendPacketF ⟨true, 0, 0, 7, 5, 18, 17, LMode.standby, 2, 0, 255⟩ ⟨3, 9, 0, 0, 1, [42]⟩ true []).packet.destination = 3 ∧
    (sendPacketF ⟨true, 0, 0, 7, 5, 18, 17, LMode.standby, 2, 0, 255⟩ ⟨3, 9, 0, 0, 1, [42]⟩ true []).packet.flags = 0 ∧
    (sendPacketF ⟨true, 0, 0, 7, 5, 18, 17, LMode.standby, 2, 0, 255⟩ ⟨3, 9, 0, 0, 1, [42]⟩ true []).packet.length = 1 ∧
    (sendPacketF ⟨true, 0, 0, 7, 5, 18, 17, LMode.standby, 2, 0, 255⟩ ⟨3, 9, 0, 0, 1, [42]⟩ true []).packet.payload = [42] :=
  c10_sendpacket_mutation ⟨true, 0, 0, 7, 5, 18, 17, LMode.standby, 2, 0, 255⟩ ⟨3, 9, 0, 0, 1, [42]⟩ true [] rfl

theorem cfgFreq_fields (s : MgrState) (fr : Int) (ok : Bool) :
    (cfgFreq s fr ok).2.initialized = s.initialized ∧
    (cfgFreq s fr ok).2.bandwidth = s.bandwidth ∧
    (cfgFreq s fr ok).2.spreadingFactor = s.spreadingFactor ∧
    (cfgFreq s fr ok).2.codingRate = s.codingRate ∧
    (cfgFreq s fr ok).2.syncWord = s.syncWord := by
  unfold cfgFreq
  split_ifs <;> simp

theorem cfgFreq_ok_freq (s : MgrState) (fr : Int) (ok : Bool)
    (h : (cfgFreq s fr ok).1 = true) : (cfgFreq s fr ok).2.frequency = fr := by
  unfold cfgFreq at h ⊢
  split_ifs at h ⊢ <;> simp_all

theorem cfgBw_bandwidth (s : MgrState) (bw : Int) : (cfgBw s bw).bandwidth = bw := by
  unfold cfgBw
  split_ifs with h <;> simp_all

theorem cfgBw_fields (s : MgrState) (bw : Int) :
    (cfgBw s bw).initialized = s.initialized ∧
    (cfgBw s bw).frequency = s.frequency ∧
    (cfgBw s bw).spreadingFactor = s.spreadingFactor ∧
    (cfgBw s bw).codingRate = s.codingRate ∧
    (cfgBw s bw).syncWord = s.syncWord := by
  unfold cfgBw
  split_ifs <;> simp

theorem cfgSf_ok (s : MgrState) (v : Int) :
    (cfgSf s v).1 = true ↔ (6 ≤ v ∧ v ≤ 12) := by
  unfold cfgSf
  split_ifs <;> simp_all <;> omega

theorem cfgSf_ok_val (s : MgrState) (v : Int) (h : (cfgSf s v).1 = true) :
    (cfgSf s v).2.spreadingFactor = v := by
  unfold cfgSf at h ⊢
  split_ifs at h ⊢ with h1 h2
  · simp
  · have hv : v = s.spreadingFactor := by
      by_contra hne
      exact h1 ⟨hne, by omega, by omega⟩
    exact hv.symm

theorem cfgSf_fields (s : MgrState) (v : Int) :
    (cfgSf s v).2.initialized = s.initialized ∧
    (cfgSf s v).2.frequency = s.frequency ∧
    (cfgSf s v).2.bandwidth = s.bandwidth ∧
    (cfgSf s v).2.codingRate = s.codingRate ∧
    (cfgSf s v).2.syncWord = s.syncWord := by
  unfold cfgSf
  split_ifs <;> simp

theorem cfgCr_ok (s : MgrState) (v : Int) :
    (cfgCr s v).1 = true ↔ (5 ≤ v ∧ v ≤ 8) := by
  unfold cfgCr
  split_ifs <;> simp_all <;> omega

theorem cfgCr_ok_val (s : MgrState) (v : Int) (h : (cfgCr s v).1 = true) :
    (cfgCr s v).2.codingRate = v := by
  unfold cfgCr at h ⊢
  split_ifs at h ⊢ with h1 h2
  · simp
  · have hv : v = s.codingRate := by
      by_contra hne
      exact h1 ⟨hne, by omega, by omega⟩
    exact hv.symm

theorem cfgCr_fields (s : MgrState) (v : Int) :
    (cfgCr s v).2.initialized = s.initialized ∧
    (cfgCr s v).2.frequency = s.frequency ∧
    (cfgCr s v).2.bandwidth = s.bandwidth ∧
    (cfgCr s v).2.spreadingFactor = s.spreadingFactor ∧
    (cfgCr s v).2.syncWord = s.syncWord := by
  unfold cfgCr
  split_ifs <;> simp

theorem cfgSync_sync (s : MgrState) (sw : Int) : (cfgSync s sw).syncWord = sw := by
  unfold cfgSync
  split_ifs with h <;> simp_all

theorem cfgSync_fields (s : MgrState) (sw : Int) :
    (cfgSync s sw).initialized = s.initialized ∧
    (cfgSync s sw).frequency = s.frequency ∧
    (cfgSync s sw).bandwidth = s.bandwidth ∧
    (cfgSync s sw).spreadingFactor = s.spreadingFactor ∧
    (cfgSync s sw).codingRate = s.codingRate := by
  unfold cfgSync
  split_ifs <;> simp

theorem configure_init_true (s : MgrState) (fr bw sf cr sw : Int) (hwOk : Bool)
    (h : s.initialized = true) :
    configure s fr bw sf cr sw hwOk =
      ⟨(cfgFreq s fr hwOk).1 && (cfgSf (cfgBw (cfgFreq s fr hwOk).2 bw) sf).1 &&
        (cfgCr (cfgSf (cfgBw (cfgFreq s fr hwOk).2 bw) sf).2 cr).1,
       cfgSync (cfgCr (cfgSf (cfgBw (cfgFreq s fr hwOk).2 bw) sf).2 cr).2 sw,
       (cfgFreq s fr hwOk).1 && (cfgSf (cfgBw (cfgFreq s fr hwOk).2 bw) sf).1 &&
        (cfgCr (cfgSf (cfgBw (cfgFreq s fr hwOk).2 bw) sf).2 cr).1⟩ := by
  simp [configure, h]

/-- C9 counterexample: with an initialized manager holding bandwidth 125,
a `configure` call carrying an invalid spreading factor (13) and a new
bandwidth (250) returns false, yet the bandwidth cache has been changed
to 250 — rejection is not atomic, refuting "no part of the new
configuration is applied". -/
theorem c9_configure_counterexample :
    (configure ⟨true, 915, 125, 7, 5, 18⟩ 915 250 13 5 18 true).ok = false ∧
    (configure ⟨true, 915, 125, 7, 5, 18⟩ 915 250 13 5 18 true).state.bandwidth = 250 ∧
    (configure ⟨true, 915, 125, 7, 5, 18⟩ 915 250 13 5 18 true).saved = false ∧
    (250 : Int) ≠ 125 := by decide

/-- C9 (amended): before `init()`, `configure` caches all five parameters
unvalidated and returns true without persisting.  When initialized, a
spreading factor outside 6..=12 or a coding rate outside 5..=8 makes it
return false and skip persisting, but the parameters are applied field
by field as the call walks them — bandwidth and sync word are never
validated and are applied even on a rejected call — and persistence
happens exactly when the call returns true; a call that returns true has
applied the full new configuration. -/
theorem c9_configure_amended (s : MgrState) (fr bw sf cr sw : Int) (hwOk : Bool) :
    (s.initialized = false →
      configure s fr bw sf cr sw hwOk = ⟨true, applyConfigFields s fr bw sf cr sw, false⟩) ∧
    (s.initialized = true →
      ((configure s fr bw sf cr sw hwOk).saved = (configure s fr bw sf cr sw hwOk).ok) ∧
      ((sf < 6 ∨ 12 < sf) → (configure s fr bw sf cr sw hwOk).ok = false) ∧
      ((cr < 5 ∨ 8 < cr) → (configure s fr bw sf cr sw hwOk).ok = false) ∧
      ((configure s fr bw sf cr sw hwOk).state.bandwidth = bw) ∧
      ((configure s fr bw sf cr sw hwOk).state.syncWord = sw) ∧
      ((configure s fr bw sf cr sw hwOk).ok = true →
        (configure s fr bw sf cr sw hwOk).state = applyConfigFields s fr bw sf cr sw)) := by
  constructor
  · intro h
    simp [configure, h, applyConfigFields]
  · intro h
    rw [configure_init_true s fr bw sf cr sw hwOk h]
    refine ⟨rfl, ?_, ?_, ?_, ?_, ?_⟩
    · intro hsf
      have hg : (cfgSf (cfgBw (cfgFreq s fr hwOk).2 bw) sf).1 = false := by
        rw [← Bool.not_eq_true, cfgSf_ok]
        omega
      simp [hg]
    · intro hcr
      have hh : (cfgCr (cfgSf (cfgBw (cfgFreq s fr hwOk).2 bw) sf).2 cr).1 = false := by
        rw [← Bool.not_eq_true, cfgCr_ok]
        omega
      simp [hh]
    · rw [(cfgSync_fields _ _).2.2.1, (cfgCr_fields _ _).2.2.1, (cfgSf_fields _ _).2.2.1]
      exact cfgBw_bandwidth _ bw
    · exact cfgSync_sync _ sw
    · intro hok
      rw [Bool.and_eq_true, Bool.and_eq_true] at hok
      obtain ⟨⟨hf, hg⟩, hh⟩ := hok
      have key : ∀ t : MgrState, t.initialized = s.initialized → t.frequency = fr →
          t.bandwidth = bw → t.spreadingFactor = sf → t.codingRate = cr →
          t.syncWord = sw → t = applyConfigFields s fr bw sf cr sw := by
        intro t e1 e2 e3 e4 e5 e6
        cases t
        simp_all [applyConfigFields]
      apply key
      · rw [(cfgSync_fields _ _).1, (cfgCr_fields _ _).1, (cfgSf_fields _ _).1,
          (cfgBw_fields _ _).1, (cfgFreq_fields _ _ _).1]
      · rw [(cfgSync_fields _ _).2.1, (cfgCr_fields _ _).2.1, (cfgSf_fields _ _).2.1,
          (cfgBw_fields _ _).2.1]
        exact cfgFreq_ok_freq s fr hwOk hf
      · rw [(cfgSync_fields _ _).2.2.1, (cfgCr_fields _ _).2.2.1, (cfgSf_fields _ _).2.2.1]
        exact cfgBw_bandwidth _ bw
      · rw [(cfgSync_fields _ _).2.2.2.1, (cfgCr_fields _ _).2.2.2.1]
        exact cfgSf_ok_val _ sf hg
      · rw [(cfgSync_fields _ _).2.2.2.2]
        exact cfgCr_ok_val _ cr hh
      · exact cfgSync_sync _ sw

theorem c9_configure_witness :
    configure ⟨false, 1, 2, 3, 4, 5⟩ 10 20 7 5 9 true = ⟨true, ⟨false, 10, 20, 7, 5, 9⟩, false⟩ :=
  (c9_configure_amended ⟨false, 1, 2, 3, 4, 5⟩ 10 20 7 5 9 true).1 rfl

theorem txFrames_append (a b : List REvent) :
    txFrames (a ++ b) = txFrames a ++ txFrames b := by
  simp [txFrames]

theorem txFrames_modeSet (m : LMode) : txFrames [REvent.modeSet m] = [] := rfl

theorem ensureReceive_fields (s : ModuleState) :
    (ensureReceive s).1.available = s.available ∧
    (ensureReceive s).1.nodeAddress = s.nodeAddress ∧
    (ensureReceive s).1.packetId = s.packetId := by
  unfold ensureReceive setMode
  split_ifs <;> simp_all

theorem ensureReceive_no_tx (s : ModuleState) : txFrames (ensureReceive s).2 = [] := by
  unfold ensureReceive setMode
  split_ifs <;> simp [txFrames]

theorem mutatePacket_congr (s t : ModuleState) (p : Packet)
    (hn : t.nodeAddress = s.nodeAddress) (hp : t.packetId = s.packetId) :
    mutatePacket t p = mutatePacket s p := by
  unfold mutatePacket
  split_ifs <;> simp [hn, hp]

theorem transmitPhase_txFrames (s : ModuleState) (p : Packet) (txOk : Bool)
    (h : s.available = true) :
    txFrames (transmitPhase s p txOk).events = [encodePacket (mutatePacket s p)] := by
  simp [transmitPhase, setMode, h]
  split_ifs <;> simp [txFrames] <;>
    exact congrArg encodePacket (mutatePacket_congr s _ p rfl rfl)

theorem transmitPhase_state_fields (s : ModuleState) (p : Packet) (txOk : Bool) :
    (transmitPhase s p txOk).state.available = s.available ∧
    (transmitPhase s p txOk).state.nodeAddress = s.nodeAddress := by
  unfold transmitPhase setMode
  split_ifs <;> simp_all

theorem encode_mutated_ack (s : ModuleState) (q : Packet) :
    encodePacket (mutatePacket s (ackPacketFor s.nodeAddress q)) =
      [q.source, s.nodeAddress,
        if q.id = 0 then (s.packetId + 1) % 256 else q.id, LORA_FLAG_ACK, 0] := by
  unfold mutatePacket ackPacketFor encodePacket
  split_ifs <;> simp

/-- C3 counterexample: a received reliable packet with id 0 (legal
on-air, since the sender-side counter wraps 255 to 0) is acknowledged
with id 5 — the receiver's freshly incremented counter — not with the
received packet's id 0, refuting "the same id as the received packet":
the emitted ACK frame is `[1, 2, 5, 1, 0]`, not `[1, 2, 0, 1, 0]`. -/
theorem c3_ack_id_counterexample :
    decodeBytes [2, 1, 0, 2, 0] = DecodeResult.ok ⟨2, 1, 0, 2, 0, []⟩ ∧
    txFrames (receivePacketF ⟨true, 0, 0, 0, 0, 0, 0, LMode.receive, 2, 0, 4⟩
        [2, 1, 0, 2, 0] true).events = [[1, 2, 5, 1, 0]] ∧
    [[(1 : Nat), 2, 5, 1, 0]] ≠ [[1, 2, 0, 1, 0]] := by decide

/-- C3 (amended): for every received packet addressed to this node
(unicast or broadcast) whose RELIABLE flag is set and whose ACK flag is
clear, `receivePacket` automatically constructs and transmits exactly
one zero-length ACK packet — destination = the received packet's source,
ACK flag set, and the received packet's id when that id is nonzero,
while a received id of 0 is replaced by a fresh id from the receiver's
packet counter — before returning the packet for dispatch; a received
packet whose ACK flag is set, or whose RELIABLE flag is clear, is never
acknowledged. -/
theorem c3_auto_ack_amended (s : ModuleState) (buf : List Nat) (q : Packet) (ackOk : Bool)
    (h1 : s.available = true) (hq : decodeBytes buf = DecodeResult.ok q)
    (haddr : q.destination = s.nodeAddress ∨ q.destination = 255) :
    (receivePacketF s buf ackOk).status = LStatus.ok ∧
    (receivePacketF s buf ackOk).packet = some q ∧
    ((q.flags &&& LORA_FLAG_RELIABLE ≠ 0 ∧ q.flags &&& LORA_FLAG_ACK = 0) →
      txFrames (receivePacketF s buf ackOk).events =
        [[q.source, s.nodeAddress,
          if q.id = 0 then (s.packetId + 1) % 256 else q.id, LORA_FLAG_ACK, 0]]) ∧
    (q.flags &&& LORA_FLAG_ACK ≠ 0 → txFrames (receivePacketF s buf ackOk).events = []) ∧
    (q.flags &&& LORA_FLAG_RELIABLE = 0 → txFrames (receivePacketF s buf ackOk).events = []) := by
  have hnd : ¬(q.destination ≠ (ensureReceive s).1.nodeAddress ∧ q.destination ≠ 255) := by
    have hn := (ensureReceive_fields s).2.1
    rcases haddr with h | h <;> simp [hn, h]
  have havail : (ensureReceive s).1.available = true := by
    rw [(ensureReceive_fields s).1]
    exact h1
  by_cases hrel : q.flags &&& LORA_FLAG_RELIABLE ≠ 0 ∧ q.flags &&& LORA_FLAG_ACK = 0
  · have heq : receivePacketF s buf ackOk =
        ⟨LStatus.ok, some q,
          (transmitPhase (ensureReceive s).1
            (ackPacketFor (ensureReceive s).1.nodeAddress q) ackOk).state,
          (ensureReceive s).2 ++
            (transmitPhase (ensureReceive s).1
              (ackPacketFor (ensureReceive s).1.nodeAddress q) ackOk).events⟩ := by
      simp [receivePacketF, h1, hq, hnd, hrel]
    rw [heq]
    refine ⟨rfl, rfl, ?_, ?_, ?_⟩
    · intro _
      rw [txFrames_append, ensureReceive_no_tx,
        transmitPhase_txFrames _ _ _ havail, List.nil_append,
        encode_mutated_ack ((ensureReceive s).1) q,
        (ensureReceive_fields s).2.1, (ensureReceive_fields s).2.2]
    · intro hack
      exact absurd hrel.2 hack
    · intro hrel0
      exact absurd hrel0 (by simpa using hrel.1)
  · have heq : receivePacketF s buf ackOk =
        ⟨LStatus.ok, some q, (ensureReceive s).1, (ensureReceive s).2⟩ := by
      simp [receivePacketF, h1, hq, hnd, hrel]
    rw [heq]
    refine ⟨rfl, rfl, ?_, ?_, ?_⟩
    · intro hcontra
      exact absurd hcontra hrel
    · intro _
      exact ensureReceive_no_tx s
    · intro _
      exact ensureReceive_no_tx s

theorem c3_auto_ack_witness :
    (receivePacketF ⟨true, 0, 0, 0, 0, 0, 0, LMode.receive, 2, 0, 4⟩ [2, 1, 7, 2, 0] true).status = LStatus.ok ∧
    (receivePacketF ⟨true, 0, 0, 0, 0, 0, 0, LMode.receive, 2, 0, 4⟩ [2, 1, 7, 2, 0] true).packet =
      some ⟨2, 1, 7, 2, 0, []⟩ ∧
    (((2 : Nat) &&& LORA_FLAG_RELIABLE ≠ 0 ∧ (2 : Nat) &&& LORA_FLAG_ACK = 0) →
      txFrames (receivePacketF ⟨true, 0, 0, 0, 0, 0, 0, LMode.receive, 2, 0, 4⟩ [2, 1, 7, 2, 0] true).events =
        [[1, 2, if (7 : Nat) = 0 then (4 + 1) % 256 else 7, LORA_FLAG_ACK, 0]]) ∧
    ((2 : Nat) &&& LORA_FLAG_ACK ≠ 0 →
      txFrames (receivePacketF ⟨true, 0, 0, 0, 0, 0, 0, LMode.receive, 2, 0, 4⟩ [2, 1, 7, 2, 0] true).events = []) ∧
    ((2 : Nat) &&& LORA_FLAG_RELIABLE = 0 →
      txFrames (receivePacketF ⟨true, 0, 0, 0, 0, 0, 0, LMode.receive, 2, 0, 4⟩ [2, 1, 7, 2, 0] true).events = []) :=
  c3_auto_ack_amended ⟨true, 0, 0, 0, 0, 0, 0, LMode.receive, 2, 0, 4⟩ [2, 1, 7, 2, 0]
    ⟨2, 1, 7, 2, 0, []⟩ true rfl (by decide) (Or.inl rfl)

/-- C8: for every received frame with a full header, the comms receive
path drops a packet whose destination is neither this device's id nor
the broadcast id silently — the registered handler is not invoked and no
ACK frame is emitted — while a packet addressed to this device or to
broadcast is dispatched to the registered handler and the reception's
RSSI/SNR are recorded. -/
theorem c8_dispatch_by_destination (s : CommsState) (buf : List Nat) (rssi snr : Int)
    (h8 : 8 ≤ buf.length) (hbytes : ∀ b ∈ buf, b < 256) :
    ((recvDestId buf ≠ s.deviceId ∧ recvDestId buf ≠ 65535) →
      (handleReceivedPacket s buf rssi snr true).dispatched = none ∧
      (handleReceivedPacket s buf rssi snr true).frames = []) ∧
    ((recvDestId buf = s.deviceId ∨ recvDestId buf = 65535) →
      (∃ pkt, (handleReceivedPacket s buf rssi snr true).dispatched = some pkt) ∧
      (handleReceivedPacket s buf rssi snr true).state.lastRssi = rssi ∧
      (handleReceivedPacket s buf rssi snr true).state.lastSnr = snr) := by
  have hlen : ¬ buf.length < 8 := by omega
  have h7 : 7 < buf.length := by omega
  have hb7 : buf.getD 7 0 < 256 := by
    rw [List.getD_eq_getElem buf 0 h7]
    exact hbytes _ (List.getElem_mem h7)
  have hsize : ¬ 256 < buf.getD 7 0 := by omega
  constructor
  · intro hd
    simp [handleReceivedPacket, hlen, hd.1, hd.2]
  · intro hd
    have hnot : ¬(recvDestId buf ≠ s.deviceId ∧ recvDestId buf ≠ 65535) := by
      rcases hd with h | h <;> simp [h]
    simp only [handleReceivedPacket]
    rw [if_neg hlen, if_neg hnot, if_neg hsize]
    split_ifs <;> simp [sendAcknowledgment, createPacket]
theorem c8_dispatch_witness :
    ((handleReceivedPacket ⟨2, 0, 0, 0⟩ [0, 0, 1, 0, 3, 0, 9, 0] 7 1 true).dispatched = none ∧
      (handleReceivedPacket ⟨2, 0, 0, 0⟩ [0, 0, 1, 0, 3, 0, 9, 0] 7 1 true).frames = []) ∧
    ((∃ pkt, (handleReceivedPacket ⟨2, 0, 0, 0⟩ [0, 0, 1, 0, 2, 0, 9, 0] 7 1 true).dispatched = some pkt) ∧
      (handleReceivedPacket ⟨2, 0, 0, 0⟩ [0, 0, 1, 0, 2, 0, 9, 0] 7 1 true).state.lastRssi = 7 ∧
      (handleReceivedPacket ⟨2, 0, 0, 0⟩ [0, 0, 1, 0, 2, 0, 9, 0] 7 1 true).state.lastSnr = 1) :=
  ⟨(c8_dispatch_by_destination ⟨2, 0, 0, 0⟩ [0, 0, 1, 0, 3, 0, 9, 0] 7 1 (by decide) (by decide)).1
      ⟨by decide, by decide⟩,
    (c8_dispatch_by_destination ⟨2, 0, 0, 0⟩ [0, 0, 1, 0, 2, 0, 9, 0] 7 1 (by decide) (by decide)).2
      (Or.inl (by decide))⟩

theorem mutatePacket_flags (s : ModuleState) (p : Packet) :
    (mutatePacket s p).flags = p.flags := by
  unfold mutatePacket
  split_ifs <;> rfl

theorem transmitPhase_status_ok (s : ModuleState) (p : Packet) (h : s.available = true) :
    (transmitPhase s p true).status = LStatus.ok := by
  simp [transmitPhase, h]

theorem transmitPhase_events (s : ModuleState) (p : Packet) (txOk : Bool)
    (h : s.available = true) :
    (transmitPhase s p txOk).events =
      (if s.mode = LMode.transmit then [] else [REvent.modeSet LMode.transmit]) ++
        [REvent.txFrame (encodePacket (mutatePacket s p))] := by
  simp [transmitPhase, setMode, h]
  split_ifs <;> simp_all <;>
    exact congrArg encodePacket (mutatePacket_congr s _ p rfl rfl)

theorem setMode_receive_ok (s : ModuleState) (h : s.available = true) :
    setMode s LMode.receive =
      ⟨true, { s with mode := LMode.receive }, [REvent.modeSet LMode.receive]⟩ := by
  simp [setMode, h]

theorem receivePacketF_state_fields (s : ModuleState) (buf : List Nat) (ackOk : Bool) :
    (receivePacketF s buf ackOk).state.available = s.available ∧
    (receivePacketF s buf ackOk).state.nodeAddress = s.nodeAddress := by
  unfold receivePacketF
  split_ifs with h
  · simp
  · cases hd : decodeBytes buf with
    | errTooLarge =>
      simp only [hd]
      exact ⟨(ensureReceive_fields s).1, (ensureReceive_fields s).2.1⟩
    | errIncomplete =>
      simp only [hd]
      exact ⟨(ensureReceive_fields s).1, (ensureReceive_fields s).2.1⟩
    | ok p =>
      simp only [hd]
      split_ifs with h1 h2
      · exact ⟨(ensureReceive_fields s).1, (ensureReceive_fields s).2.1⟩
      · constructor
        · rw [(transmitPhase_state_fields _ _ _).1, (ensureReceive_fields s).1]
        · rw [(transmitPhase_state_fields _ _ _).2, (ensureReceive_fields s).2.1]
      · exact ⟨(ensureReceive_fields s).1, (ensureReceive_fields s).2.1⟩

theorem receivePacketF_packet_some (s : ModuleState) (buf : List Nat) (ackOk : Bool)
    (q : Packet) (h : s.available = true) :
    ((receivePacketF s buf ackOk).packet = some q) ↔ decodeBytes buf = DecodeResult.ok q := by
  unfold receivePacketF
  rw [if_neg (by simp [h])]
  cases hd : decodeBytes buf with
  | errTooLarge => simp
  | errIncomplete => simp
  | ok p =>
    dsimp only
    split_ifs <;> simp

theorem receivePacketF_tx_ack (s : ModuleState) (buf : List Nat) (ackOk : Bool) :
    ∀ f ∈ txFrames (receivePacketF s buf ackOk).events, isAckFrame f := by
  unfold receivePacketF
  split_ifs with h
  · simp [txFrames]
  · have hav : s.available = true := by
      revert h
      cases s.available <;> simp
    have havr : (ensureReceive s).1.available = true := by
      rw [(ensureReceive_fields s).1]
      exact hav
    cases hd : decodeBytes buf with
    | errTooLarge =>
      simp only [hd]
      rw [ensureReceive_no_tx]
      intro f hf
      simp at hf
    | errIncomplete =>
      simp only [hd]
      rw [ensureReceive_no_tx]
      intro f hf
      simp at hf
    | ok p =>
      simp only [hd]
      split_ifs with h1 h2
      · rw [ensureReceive_no_tx]
        intro f hf
        simp at hf
      · rw [txFrames_append, ensureReceive_no_tx, List.nil_append,
          transmitPhase_txFrames _ _ _ havr, encode_mutated_ack ((ensureReceive s).1) p]
        intro f hf
        simp at hf
        exact ⟨p.source, (ensureReceive s).1.nodeAddress, _, hf⟩
      · rw [ensureReceive_no_tx]
        intro f hf
        simp at hf

theorem ackFrame_ne_sent (p' : Packet) (hfl : p'.flags &&& LORA_FLAG_RELIABLE ≠ 0)
    (f : List Nat) (hf : isAckFrame f) : f ≠ encodePacket p' := by
  obtain ⟨d, s', i, rfl⟩ := hf
  intro heq
  unfold encodePacket at heq
  simp only [List.cons_append, List.nil_append, List.cons.injEq] at heq
  have hone : LORA_FLAG_ACK = p'.flags := heq.2.2.2.1
  rw [← hone] at hfl
  exact hfl (by decide)

theorem ackWaitLoop_spec (sent : Packet) (polls : List (Option (List Nat))) :
    ∀ s : ModuleState, s.available = true →
      ((ackWaitLoop sent s polls).status = LStatus.ok ∨
        (ackWaitLoop sent s polls).status = LStatus.noAck) ∧
      ((ackWaitLoop sent s polls).status = LStatus.ok ↔
        ∃ buf, some buf ∈ polls ∧ pollMatches s.nodeAddress sent buf) ∧
      (∀ f ∈ txFrames (ackWaitLoop sent s polls).events, isAckFrame f) ∧
      (ackWaitLoop sent s polls).state.available = true ∧
      (ackWaitLoop sent s polls).state.nodeAddress = s.nodeAddress := by
  induction polls with
  | nil =>
    intro s h
    have heq : ackWaitLoop sent s [] = ⟨LStatus.noAck, s, []⟩ := rfl
    rw [heq]
    refine ⟨Or.inr rfl, by simp, ?_, h, rfl⟩
    intro f hf
    simp [txFrames] at hf
  | cons head rest ih =>
    intro s h
    have he := ensureReceive_fields s
    have h1 : (ensureReceive s).1.available = true := by
      rw [he.1]
      exact h
    cases head with
    | none =>
      have heq : ackWaitLoop sent s (none :: rest) =
          ⟨(ackWaitLoop sent (ensureReceive s).1 rest).status,
            (ackWaitLoop sent (ensureReceive s).1 rest).state,
            (ensureReceive s).2 ++ (ackWaitLoop sent (ensureReceive s).1 rest).events⟩ := rfl
      rw [heq]
      obtain ⟨ha, hb, hc, hd', he'⟩ := ih (ensureReceive s).1 h1
      rw [he.2.1] at hb
      refine ⟨ha, ?_, ?_, hd', by rw [he', he.2.1]⟩
      · rw [hb]
        constructor
        · rintro ⟨buf, hm, hp⟩
          exact ⟨buf, List.mem_cons_of_mem _ hm, hp⟩
        · rintro ⟨buf, hm, hp⟩
          rcases List.mem_cons.mp hm with hh | hh
          · exact absurd hh (by simp)
          · exact ⟨buf, hh, hp⟩
      · intro f hf
        rw [txFrames_append, ensureReceive_no_tx, List.nil_append] at hf
        exact hc f hf
    | some buf =>
      have hrs := receivePacketF_state_fields (ensureReceive s).1 buf true
      have hravail : (receivePacketF (ensureReceive s).1 buf true).state.available = true := by
        rw [hrs.1]
        exact h1
      have hrnode : (receivePacketF (ensureReceive s).1 buf true).state.nodeAddress =
          s.nodeAddress := by
        rw [hrs.2, he.2.1]
      cases hrp : (receivePacketF (ensureReceive s).1 buf true).packet with
      | some q =>
        by_cases hm : ackMatches (ensureReceive s).1.nodeAddress sent q
        · have heq : ackWaitLoop sent s (some buf :: rest) =
              ⟨LStatus.ok, (receivePacketF (ensureReceive s).1 buf true).state,
                (ensureReceive s).2 ++ (receivePacketF (ensureReceive s).1 buf true).events⟩ := by
            simp [ackWaitLoop, hrp, hm]
          rw [heq]
          have hdq : decodeBytes buf = DecodeResult.ok q :=
            (receivePacketF_packet_some _ _ _ _ h1).mp hrp
          rw [he.2.1] at hm
          refine ⟨Or.inl rfl, ?_, ?_, hravail, hrnode⟩
          · constructor
            · intro _
              exact ⟨buf, List.mem_cons_self _ _, ⟨q, hdq, hm⟩⟩
            · intro _
              rfl
          · intro f hf
            rw [txFrames_append, ensureReceive_no_tx, List.nil_append] at hf
            exact receivePacketF_tx_ack _ _ _ f hf
        · have heq : ackWaitLoop sent s (some buf :: rest) =
              ⟨(ackWaitLoop sent (receivePacketF (ensureReceive s).1 buf true).state rest).status,
                (ackWaitLoop sent (receivePacketF (ensureReceive s).1 buf true).state rest).state,
                (ensureReceive s).2 ++ (receivePacketF (ensureReceive s).1 buf true).events ++
                  (ackWaitLoop sent (receivePacketF (ensureReceive s).1 buf true).state rest).events⟩ := by
            simp [ackWaitLoop, hrp, hm]
          rw [heq]
          obtain ⟨ha, hb, hc, hd', he'⟩ :=
            ih (receivePacketF (ensureReceive s).1 buf true).state hravail
          rw [hrnode] at hb
          refine ⟨ha, ?_, ?_, hd', by rw [he', hrnode]⟩
          · rw [hb]
            constructor
            · rintro ⟨b2, hm2, hp2⟩
              exact ⟨b2, List.mem_cons_of_mem _ hm2, hp2⟩
            · rintro ⟨b2, hm2, hp2⟩
              rcases List.mem_cons.mp hm2 with hh | hh
              · obtain ⟨q', hq', hm'⟩ := hp2
                have hb2 : b2 = buf := by
                  injection hh
                subst hb2
                have hdq : decodeBytes b2 = DecodeResult.ok q :=
                  (receivePacketF_packet_some _ _ _ _ h1).mp hrp
                rw [hdq] at hq'
                injection hq' with hqq
                subst hqq
                rw [he.2.1] at hm
                exact absurd hm' hm
              · exact ⟨b2, hh, hp2⟩
          · intro f hf
            rw [txFrames_append, txFrames_append, ensureReceive_no_tx, List.nil_append] at hf
            rcases List.mem_append.mp hf with hf1 | hf2
            · exact receivePacketF_tx_ack _ _ _ f hf1
            · exact hc f hf2
      | none =>
        have heq : ackWaitLoop sent s (some buf :: rest) =
            ⟨(ackWaitLoop sent (receivePacketF (ensureReceive s).1 buf true).state rest).status,
              (ackWaitLoop sent (receivePacketF (ensureReceive s).1 buf true).state rest).state,
              (ensureReceive s).2 ++ (receivePacketF (ensureReceive s).1 buf true).events ++
                (ackWaitLoop sent (receivePacketF (ensureReceive s).1 buf true).state rest).events⟩ := by
          simp [ackWaitLoop, hrp]
        rw [heq]
        obtain ⟨ha, hb, hc, hd', he'⟩ :=
          ih (receivePacketF (ensureReceive s).1 buf true).state hravail
        rw [hrnode] at hb
        refine ⟨ha, ?_, ?_, hd', by rw [he', hrnode]⟩
        · rw [hb]
          constructor
          · rintro ⟨b2, hm2, hp2⟩
            exact ⟨b2, List.mem_cons_of_mem _ hm2, hp2⟩
          · rintro ⟨b2, hm2, hp2⟩
            rcases List.mem_cons.mp hm2 with hh | hh
            · obtain ⟨q', hq', hm'⟩ := hp2
              have hb2 : b2 = buf := by
                injection hh
              subst hb2
              have hps : (receivePacketF (ensureReceive s).1 b2 true).packet = some q' :=
                (receivePacketF_packet_some _ _ _ _ h1).mpr hq'
              rw [hrp] at hps
              exact absurd hps (by simp)
            · exact ⟨b2, hh, hp2⟩
        · intro f hf
          rw [txFrames_append, txFrames_append, ensureReceive_no_tx, List.nil_append] at hf
          rcases List.mem_append.mp hf with hf1 | hf2
          · exact receivePacketF_tx_ack _ _ _ f hf1
          · exact hc f hf2


/-- C2: for every available module and packet with the RELIABLE flag,
`sendPacket` transmits the (mutated) packet exactly once — the events
are the optional switch to TRANSMIT, the single transmission of the
packet's frame, the switch to RECEIVE, and then only wait-loop events
whose transmissions are all auto-ACK frames distinct from the sent frame
(no retry) — and returns OK exactly when some poll within the timeout
window delivers a packet that parses and carries the ACK flag, the sent
packet's id, this node's address as destination and the sent packet's
destination as source; otherwise it returns NO_ACK. -/
theorem c2_reliable_send_ack_wait (s : ModuleState) (p : Packet)
    (polls : List (Option (List Nat))) (h1 : s.available = true)
    (h2 : p.flags &&& LORA_FLAG_RELIABLE ≠ 0) :
    ((sendPacketF s p true polls).status = LStatus.ok ∨
      (sendPacketF s p true polls).status = LStatus.noAck) ∧
    ((sendPacketF s p true polls).status = LStatus.ok ↔
      ∃ buf, some buf ∈ polls ∧
        pollMatches s.nodeAddress (sendPacketF s p true polls).packet buf) ∧
    (∃ evLoop,
      (sendPacketF s p true polls).events =
        (if s.mode = LMode.transmit then [] else [REvent.modeSet LMode.transmit]) ++
          [REvent.txFrame (encodePacket (sendPacketF s p true polls).packet),
            REvent.modeSet LMode.receive] ++ evLoop ∧
      (∀ f ∈ txFrames evLoop, isAckFrame f) ∧
      (∀ f ∈ txFrames evLoop, f ≠ encodePacket (sendPacketF s p true polls).packet)) := by
  have hts := transmitPhase_status_ok s p h1
  have htp := transmitPhase_packet s p true h1
  have htf := transmitPhase_state_fields s p true
  have havT : (transmitPhase s p true).state.available = true := by
    rw [htf.1]
    exact h1
  have hns : ¬((transmitPhase s p true).status ≠ LStatus.ok) := by
    rw [hts]
    simp
  have hfl : (transmitPhase s p true).packet.flags &&& LORA_FLAG_RELIABLE ≠ 0 := by
    rw [htp, mutatePacket_flags]
    exact h2
  have hM := setMode_receive_ok (transmitPhase s p true).state havT
  have heq : sendPacketF s p true polls =
      ⟨(ackWaitLoop (transmitPhase s p true).packet
          (setMode (transmitPhase s p true).state LMode.receive).state polls).status,
        (transmitPhase s p true).packet,
        (ackWaitLoop (transmitPhase s p true).packet
          (setMode (transmitPhase s p true).state LMode.receive).state polls).state,
        (transmitPhase s p true).events ++
          (setMode (transmitPhase s p true).state LMode.receive).events ++
          (ackWaitLoop (transmitPhase s p true).packet
            (setMode (transmitPhase s p true).state LMode.receive).state polls).events⟩ := by
    simp only [sendPacketF]
    rw [if_neg hns, if_pos hfl]
  have hMavail : (setMode (transmitPhase s p true).state LMode.receive).state.available = true := by
    rw [hM]
    exact havT
  have hMnode : (setMode (transmitPhase s p true).state LMode.receive).state.nodeAddress =
      s.nodeAddress := by
    rw [hM]
    exact htf.2
  obtain ⟨wa, wb, wc, -, -⟩ :=
    ackWaitLoop_spec (transmitPhase s p true).packet polls
      (setMode (transmitPhase s p true).state LMode.receive).state hMavail
  rw [hMnode] at wb
  rw [heq]
  refine ⟨wa, wb, ?_⟩
  refine ⟨(ackWaitLoop (transmitPhase s p true).packet
      (setMode (transmitPhase s p true).state LMode.receive).state polls).events, ?_, wc, ?_⟩
  · rw [transmitPhase_events s p true h1, hM, htp]
    simp [List.append_assoc]
  · intro f hf
    exact ackFrame_ne_sent _ hfl f (wc f hf)

theorem c2_reliable_send_witness :
    ((⟨3, 0, 5, 2, 0, []⟩ : Packet).flags &&& LORA_FLAG_RELIABLE ≠ 0) ∧
    (((sendPacketF ⟨true, 0, 0, 0, 0, 0, 0, LMode.standby, 2, 0, 0⟩ ⟨3, 0, 5, 2, 0, []⟩ true
        [some [2, 3, 5, 1, 0]]).status = LStatus.ok ∨
      (sendPacketF ⟨true, 0, 0, 0, 0, 0, 0, LMode.standby, 2, 0, 0⟩ ⟨3, 0, 5, 2, 0, []⟩ true
        [some [2, 3, 5, 1, 0]]).status = LStatus.noAck) ∧
    ((sendPacketF ⟨true, 0, 0, 0, 0, 0, 0, LMode.standby, 2, 0, 0⟩ ⟨3, 0, 5, 2, 0, []⟩ true
        [some [2, 3, 5, 1, 0]]).status = LStatus.ok ↔
      ∃ buf, some buf ∈ [some [2, 3, 5, 1, 0]] ∧
        pollMatches (⟨true, 0, 0, 0, 0, 0, 0, LMode.standby, 2, 0, 0⟩ : ModuleState).nodeAddress
          (sendPacketF ⟨true, 0, 0, 0, 0, 0, 0, LMode.standby, 2, 0, 0⟩ ⟨3, 0, 5, 2, 0, []⟩ true
            [some [2, 3, 5, 1, 0]]).packet buf) ∧
    (∃ evLoop,
      (sendPacketF ⟨true, 0, 0, 0, 0, 0, 0, LMode.standby, 2, 0, 0⟩ ⟨3, 0, 5, 2, 0, []⟩ true
          [some [2, 3, 5, 1, 0]]).events =
        (if (⟨true, 0, 0, 0, 0, 0, 0, LMode.standby, 2, 0, 0⟩ : ModuleState).mode = LMode.transmit
          then [] else [REvent.modeSet LMode.transmit]) ++
          [REvent.txFrame (encodePacket
              (sendPacketF ⟨true, 0, 0, 0, 0, 0, 0, LMode.standby, 2, 0, 0⟩ ⟨3, 0, 5, 2, 0, []⟩ true
                [some [2, 3, 5, 1, 0]]).packet),
            REvent.modeSet LMode.receive] ++ evLoop ∧
      (∀ f ∈ txFrames evLoop, isAckFrame f) ∧
      (∀ f ∈ txFrames evLoop, f ≠ encodePacket
          (sendPacketF ⟨true, 0, 0, 0, 0, 0, 0, LMode.standby, 2, 0, 0⟩ ⟨3, 0, 5, 2, 0, []⟩ true
            [some [2, 3, 5, 1, 0]]).packet))) :=
  ⟨by decide,
    c2_reliable_send_ack_wait ⟨true, 0, 0, 0, 0, 0, 0, LMode.standby, 2, 0, 0⟩
      ⟨3, 0, 5, 2, 0, []⟩ [some [2, 3, 5, 1, 0]] rfl (by decide)⟩

end TDeckLoRa
